import Mathlib

/-!
Verification of the httpz instrumented HTTP client.

Shallow embedding of the request execution pipeline of the httpz package:
named-route resolution (`Do`, `GetPath`), default-header handling, the
middleware chain wired in `NewClient` (`startTrace`, `logRequest`,
`logResponse`, `endTraceSuccess`, `endTraceError`), and the circuit-breaker
gate.  Middleware effects are modelled as an explicit event trace so that
span-lifecycle and log-record invariants become countable statements.
-/

namespace Httpz

/-- A request body as handed to json.Marshal: either a value that marshals to
the given JSON string, or a value on which json.Marshal fails with the given
error message. -/
inductive Body
  | json (s : String)
  | unmarshalable (err : String)
deriving DecidableEq

/-- Embeds json.Marshal of the request body (log_mw.go line 23). -/
def marshalBody : Body → Except String String
  | .json s => .ok s
  | .unmarshalable e => .error e

/-- Which ending hook closed a span: the success path (response middleware
`endTraceSuccess`), the error path (`OnError` hook), or the panic path
(`OnPanic` hook). -/
inductive EndPath
  | success
  | errorHook
  | panicHook
deriving DecidableEq

/-- Observable side effects of one call, in order of occurrence:
span opened / span closed (tracing middleware), pre-send log record
(info record, or the error record carrying a marshal failure), post-receive
log record (with its severity flag), breaker consultation, and the transport
round-trip itself. -/
inductive Event
  | spanStart
  | spanEnd (via : EndPath)
  | logPre
  | logPreEncodeErr (err : String)
  | logPost (errorLevel : Bool)
  | breakerConsult
  | transportCall
deriving DecidableEq

def Event.isSpanStart : Event → Bool
  | .spanStart => true
  | _ => false

def Event.isSpanEnd : Event → Bool
  | .spanEnd _ => true
  | _ => false

def Event.isPreLog : Event → Bool
  | .logPre => true
  | .logPreEncodeErr _ => true
  | _ => false

def Event.isPostLog : Event → Bool
  | .logPost _ => true
  | _ => false

def Event.isLogRecord : Event → Bool
  | .logPre => true
  | .logPreEncodeErr _ => true
  | .logPost _ => true
  | _ => false

def Event.isTransportCall : Event → Bool
  | .transportCall => true
  | _ => false

def countSpanStarts (ev : List Event) : Nat := ev.countP Event.isSpanStart

def countSpanEnds (ev : List Event) : Nat := ev.countP Event.isSpanEnd

def countLogRecords (ev : List Event) : Nat := ev.countP Event.isLogRecord

def countTransportCalls (ev : List Event) : Nat := ev.countP Event.isTransportCall

/-- The middleware enable flags of the client configuration
(config.go: `logMWEnabled`, `otelMWEnabled`). -/
structure Config where
  logMWEnabled : Bool
  otelMWEnabled : Bool
deriving DecidableEq

/-- The per-call context as seen by the tracing middleware.
`parentSpanValid` embeds `trace.SpanFromContext(ctx).SpanContext().IsValid()`
for the caller-supplied context; `activeSpan` records whether `startTrace`
has attached a new httpz client span to the context (false at call entry). -/
structure Ctx where
  parentSpanValid : Bool
  activeSpan : Bool
deriving DecidableEq

/-- Embeds `startTrace` (otel_mw.go lines 18-53): skip when the otel
middleware is disabled or no valid parent span context exists on the
caller-supplied context; otherwise start a client span, inject the context,
and attach the new span to the request context. -/
def startTrace (cfg : Config) (ctx : Ctx) : Ctx × List Event :=
  if !cfg.otelMWEnabled then (ctx, [])
  else if !ctx.parentSpanValid then (ctx, [])
  else ({ ctx with activeSpan := true }, [.spanStart])

/-- Embeds `logRequest` (log_mw.go lines 11-35): skip when disabled; on a
marshal failure of the request body, emit an error-level record carrying the
marshal error and return that error (aborting the send); otherwise emit the
outgoing-request info record and return no error. -/
def logRequest (cfg : Config) (body : Body) : List Event × Option String :=
  if !cfg.logMWEnabled then ([], none)
  else
    match marshalBody body with
    | .error e => ([.logPreEncodeErr e], some e)
    | .ok _ => ([.logPre], none)

/-- Embeds resty Response.IsError: status code greater than 399. -/
def responseIsError (status : Nat) : Bool := 399 < status

/-- Embeds `logResponse` (log_mw.go lines 37-60): skip when disabled;
otherwise emit one post-receive record, error-level when the status denotes
failure. -/
def logResponse (cfg : Config) (status : Nat) : List Event :=
  if !cfg.logMWEnabled then []
  else [.logPost (responseIsError status)]

/-- Embeds `endTraceSuccess` (otel_mw.go lines 55-79): skip when disabled;
otherwise end the span found in the request context.  When no httpz span was
attached, `trace.SpanFromContext` yields a non-recording no-op span and
`End` has no observable effect, hence no event. -/
def endTraceSuccess (cfg : Config) (ctx : Ctx) : List Event :=
  if !cfg.otelMWEnabled then []
  else if ctx.activeSpan then [.spanEnd .success] else []

/-- Embeds `endTraceError` (otel_mw.go lines 81-93), wired both as the
`OnError` hook and as the `OnPanic` hook: skip when disabled; otherwise
record the error and end the span found in the request context (a no-op
when no httpz span was attached). -/
def endTraceError (cfg : Config) (ctx : Ctx) (p : EndPath) : List Event :=
  if !cfg.otelMWEnabled then []
  else if ctx.activeSpan then [.spanEnd p] else []

/-- Outcome of the transport round-trip, as produced by the external engine:
the call completes with a status code (any code, including 4xx/5xx), fails at
the transport level (DNS, connection refusal, timeout, cancellation), or
panics during execution. -/
inductive TransportOutcome
  | completes (status : Nat)
  | fails (msg : String)
  | panics (msg : String)
deriving DecidableEq

/-- Cause of a failed execution, kept so that the wrapped error remains
distinguishable: a transport-level failure, a request-body marshal failure
raised by the pre-send logging hook, or a circuit-breaker rejection. -/
inductive Cause
  | transport (msg : String)
  | encode (msg : String)
  | breakerOpen
deriving DecidableEq

/-- The underlying error message of a cause.  The breaker rejection carries
the sentinel message of the external engine. -/
def Cause.message : Cause → String
  | .transport m => m
  | .encode m => m
  | .breakerOpen => "circuit breaker is open"

/-- Result of executing a fully built request through the middleware chain. -/
inductive ExecResult
  | response (status : Nat)
  | failure (cause : Cause)
  | panicked (msg : String)
deriving DecidableEq

/-- Embeds one pass of the engine around the transport, with the hook order
wired in `NewClient` (httpz.go lines 48-53): the request middlewares
`startTrace` then `logRequest` run before the transport call; a request
middleware error aborts the send and fires the `OnError` hook; on transport
failure the `OnError` hook fires; on panic the `OnPanic` hook fires; on a
completed round-trip (any status code) the response middlewares
`logResponse` then `endTraceSuccess` run.  After-response middlewares do not
run on transport failure. -/
def execute (cfg : Config) (ctx : Ctx) (body : Body) (t : TransportOutcome) :
    List Event × ExecResult :=
  let s1 := startTrace cfg ctx
  match logRequest cfg body with
  | (e2, some err) =>
      (s1.2 ++ e2 ++ endTraceError cfg s1.1 .errorHook, .failure (.encode err))
  | (e2, none) =>
      match t with
      | .fails m =>
          (s1.2 ++ e2 ++ [.transportCall] ++ endTraceError cfg s1.1 .errorHook,
            .failure (.transport m))
      | .panics m =>
          (s1.2 ++ e2 ++ [.transportCall] ++ endTraceError cfg s1.1 .panicHook,
            .panicked m)
      | .completes st =>
          (s1.2 ++ e2 ++ [.transportCall] ++ logResponse cfg st ++ endTraceSuccess cfg s1.1,
            .response st)

/-- An http.Header, modelled as an association list with unique keys kept by
construction.  `headerGet` embeds Header.Get (first value of the key, empty
string when absent); `headerSet` embeds Header.Set (replace the key's
values). -/
abbrev Header := List (String × String)

def headerGet (h : Header) (k : String) : String :=
  ((h.find? (fun kv => kv.1 == k)).map (fun kv => kv.2)).getD ""

def headerSet (h : Header) (k v : String) : Header :=
  (k, v) :: h.filter (fun kv => kv.1 != k)

def hasKey (h : Header) (k : String) : Bool :=
  h.any (fun kv => kv.1 == k)

/-- Embeds the default-header handling in `Do` (httpz.go lines 88-94): set
Content-Type to application/json only when the caller did not set one, then
set User-Agent to clientName/version unconditionally. -/
def setDefaultHeaders (clientName version : String) (h : Header) : Header :=
  let h1 :=
    if headerGet h "Content-Type" == "" then headerSet h "Content-Type" "application/json"
    else h
  headerSet h1 "User-Agent" (clientName ++ "/" ++ version)

/-- Embeds the resty header merge at request construction: client-level
default headers (SetHeaders on the client) are overridden wholesale, key by
key, by request-level headers (SetHeaderMultiValues). -/
def mergeHeaders (base callH : Header) : Header :=
  callH ++ base.filter (fun kv => !hasKey callH kv.1)

/-- Basic-auth credentials (net/url Userinfo as carried on resty.Request). -/
structure UserInfo where
  username : String
  password : String
deriving DecidableEq

/-- Embeds the guarded basic-auth application in `Do` (httpz.go lines
107-109): the credentials are applied only behind an explicit nil check
`if req.UserInfo != nil`, so the absent case is never dereferenced. -/
def applyBasicAuth : Option UserInfo → Option (String × String)
  | some u => some (u.username, u.password)
  | none => none

/-- The httpz client as built by `NewClient` (httpz.go lines 20-61): display
name, service version, base URL, the immutable path registry, the
client-level default headers, and the middleware configuration. -/
structure Client where
  name : String
  version : String
  baseURL : String
  paths : List (String × String)
  baseHeaders : Header
  cfg : Config
deriving DecidableEq

/-- Embeds the Go map lookup `client.paths[name]` with its presence flag.
Registry keys are unique. -/
def lookupPath (paths : List (String × String)) (nm : String) : Option String :=
  (paths.find? (fun kv => kv.1 == nm)).map (fun kv => kv.2)

/-- Embeds `Client.GetPath` (no presence check: a missing name yields the Go
zero value, the empty string). -/
def GetPath (c : Client) (nm : String) : String :=
  (lookupPath c.paths nm).getD ""

/-- The per-call request descriptor handed to `Do`. -/
structure Request where
  pathName : String
  header : Header
  userInfo : Option UserInfo
  body : Body
deriving DecidableEq

/-- The typed error taxonomy surfaced by `Do`: the route-not-found error
(httpz.go line 85) or the wrapped execution error (httpz.go line 113). -/
inductive DoError
  | routeNotFound (nm : String)
  | executionError (cause : Cause)
deriving DecidableEq

/-- The error message as formatted by `Do`: fmt.Errorf("path %q not found",
name) and fmt.Errorf("error executing request: %w", err).  The %w wrapping
keeps the underlying cause in the message and reachable via errors.Is. -/
def DoError.message : DoError → String
  | .routeNotFound nm => "path \"" ++ nm ++ "\" not found"
  | .executionError c => "error executing request: " ++ c.message

def DoError.isBreakerOpen : DoError → Bool
  | .executionError .breakerOpen => true
  | _ => false

/-- The populated response envelope returned on a completed call. -/
structure Envelope where
  statusCode : Nat
deriving DecidableEq

inductive DoResult
  | ok (env : Envelope)
  | err (e : DoError)
  | panicked (msg : String)
deriving DecidableEq

/-- The fully built outgoing request as handed to the transport. -/
structure Wire where
  url : String
  headers : Header
  basicAuth : Option (String × String)
deriving DecidableEq

/-- Embeds `Do` (httpz.go lines 82-117): resolve the route name first and
fail fast when absent (before any middleware, hence the empty event trace
and no built request); otherwise apply the default headers, build the
outgoing request (client headers merged under call headers, guarded
basic-auth), execute it through the middleware chain, and either wrap the
execution error (nil envelope) or return the populated envelope — the
status code is returned as-is, a 4xx/5xx response is not an error. -/
def Do (c : Client) (ctx : Ctx) (req : Request) (t : TransportOutcome) :
    List Event × Option Wire × DoResult :=
  match lookupPath c.paths req.pathName with
  | none => ([], none, .err (.routeNotFound req.pathName))
  | some path =>
      let hdr := setDefaultHeaders c.name c.version req.header
      let wire : Wire :=
        { url := c.baseURL ++ path
          headers := mergeHeaders c.baseHeaders hdr
          basicAuth := applyBasicAuth req.userInfo }
      match execute c.cfg ctx req.body t with
      | (ev, .response s) => (ev, some wire, .ok { statusCode := s })
      | (ev, .failure cse) => (ev, some wire, .err (.executionError cse))
      | (ev, .panicked m) => (ev, some wire, .panicked m)

/-- Embeds issuing a request directly via `client.NewRequest(ctx).Get(path)`
(part 000 lines 84-91): no registry lookup takes place, the path string is
appended to the base URL and the request runs through the same middleware
chain.  Returns the event trace, the resolved URL, and the engine result. -/
def clientGet (c : Client) (ctx : Ctx) (path : String) (t : TransportOutcome) :
    List Event × String × ExecResult :=
  let r := execute c.cfg ctx (.json "null") t
  (r.1, c.baseURL ++ path, r.2)

/-- Modelled from the spec: the three logical states of the external
circuit breaker consumed by the gate (spec section 4.4; the threshold state
machine itself lives in the external engine, not in this repository).
`closed` tracks consecutive recorded failures, `opened` remembers when the
breaker opened, `halfOpen` tracks trial successes. -/
inductive BreakerState
  | closed (failures : Nat)
  | opened (openedAt : Nat)
  | halfOpen (successes : Nat)
deriving DecidableEq

/-- Modelled from the spec: the external breaker object with its
configuration (timeout window in milliseconds, failure and success
thresholds) and current state. -/
structure Breaker where
  timeout : Nat
  failureThreshold : Nat
  successThreshold : Nat
  state : BreakerState
deriving DecidableEq

/-- Modelled from the spec: the defaults documented on `WithCircuitBreaker`
(config.go line 103): 10s window, failure threshold 3, success threshold 1,
starting closed. -/
def NewCircuitBreaker : Breaker :=
  { timeout := 10000, failureThreshold := 3, successThreshold := 1, state := .closed 0 }

/-- Embeds `WithCircuitBreaker` (config.go lines 104-132): start from the
engine defaults and override each parameter only when a positive value was
passed. -/
def WithCircuitBreaker (timeout failureThreshold successThreshold : Nat) : Breaker :=
  let b := NewCircuitBreaker
  let b := if 0 < timeout then { b with timeout := timeout } else b
  let b := if 0 < failureThreshold then { b with failureThreshold := failureThreshold } else b
  if 0 < successThreshold then { b with successThreshold := successThreshold } else b

/-- Modelled from the spec: the default success/failure policy, "status code
500 and above is a failure" (config.go line 103, spec section 4.4). -/
def defaultBreakerPolicy (status : Nat) : Bool := 500 ≤ status

/-- Modelled from the spec: the admission decision of the external breaker.
Closed and Half-Open admit the call; Open rejects it until the timeout
window has elapsed, after which the next call is admitted as a half-open
trial. -/
def Breaker.allow (b : Breaker) (now : Nat) : Bool × Breaker :=
  match b.state with
  | .closed _ => (true, b)
  | .halfOpen _ => (true, b)
  | .opened t0 =>
      if t0 + b.timeout ≤ now then (true, { b with state := .halfOpen 0 })
      else (false, b)

/-- Modelled from the spec: outcome feedback to the external breaker.  In
Closed, a failure increments the consecutive-failure count and opens the
breaker at the failure threshold, a success resets the count; in Half-Open,
a failure reopens the breaker, and enough successes close it. -/
def Breaker.record (b : Breaker) (failed : Bool) (now : Nat) : Breaker :=
  match b.state with
  | .closed f =>
      if failed then
        if b.failureThreshold ≤ f + 1 then { b with state := .opened now }
        else { b with state := .closed (f + 1) }
      else { b with state := .closed 0 }
  | .halfOpen s =>
      if failed then { b with state := .opened now }
      else
        if b.successThreshold ≤ s + 1 then { b with state := .closed 0 }
        else { b with state := .halfOpen (s + 1) }
  | .opened _ => b

/-- The gated call pipeline of the breaker-enabled client (part 000 lines
40-49 wire the breaker into the engine; spec section 4.5 step 5 places the
gate before the middleware chain).  Route resolution still fails first; a
rejected call returns the breaker-open error with no middleware run and no
transport reached; an admitted call runs `execute` and reports the outcome
back to the breaker under the default policy. -/
def doWithBreaker (c : Client) (b : Breaker) (now : Nat) (ctx : Ctx) (req : Request)
    (t : TransportOutcome) : List Event × DoResult × Breaker :=
  match lookupPath c.paths req.pathName with
  | none => ([], .err (.routeNotFound req.pathName), b)
  | some _ =>
      let ab := b.allow now
      if ab.1 then
        match execute c.cfg ctx req.body t with
        | (ev, .response s) =>
            (.breakerConsult :: ev, .ok { statusCode := s },
              ab.2.record (defaultBreakerPolicy s) now)
        | (ev, .failure cse) =>
            (.breakerConsult :: ev, .err (.executionError cse), ab.2.record true now)
        | (ev, .panicked m) => (.breakerConsult :: ev, .panicked m, ab.2)
      else ([.breakerConsult], .err (.executionError .breakerOpen), ab.2)

/-- `n` consecutive gated calls with the same request and outcome, one time
unit apart, threading the breaker state. -/
def iterateCalls (c : Client) (ctx : Ctx) (req : Request) (t : TransportOutcome) :
    Nat → Breaker → Nat → Breaker
  | 0, b, _ => b
  | n + 1, b, now => iterateCalls c ctx req t n (doWithBreaker c b now ctx req t).2.2 (now + 1)

/-- A concrete client used to instantiate the theorems below. -/
def testClient : Client :=
  { name := "test-client"
    version := "1.0"
    baseURL := "http://api.example.com"
    paths := [("getUser", "/users/{id}")]
    baseHeaders := [("x-base-header", "base-val")]
    cfg := { logMWEnabled := true, otelMWEnabled := true } }

/-- C1: with tracing enabled and a valid parent span context, every call
starts exactly one span and ends it exactly once — via exactly one of the
success path, the error path, or the panic path — whatever the outcome:
completed round-trip (any status, 4xx/5xx included), transport error,
panic, or a pre-send abort. -/
theorem span_started_and_ended_exactly_once (cfg : Config) (ctx : Ctx) (body : Body)
    (t : TransportOutcome) (hotel : cfg.otelMWEnabled = true)
    (hparent : ctx.parentSpanValid = true) (hidle : ctx.activeSpan = false) :
    countSpanStarts (execute cfg ctx body t).1 = 1 ∧
    countSpanEnds (execute cfg ctx body t).1 = 1 := by
  cases body <;> cases t <;> cases hl : cfg.logMWEnabled <;>
    simp [execute, startTrace, logRequest, marshalBody, logResponse, endTraceSuccess,
      endTraceError, countSpanStarts, countSpanEnds, hotel, hparent, hidle, hl,
      Event.isSpanStart, Event.isSpanEnd, List.countP_cons, List.countP_nil,
      List.countP_append]

theorem span_started_and_ended_exactly_once_witness :
    countSpanStarts
      (execute ⟨true, true⟩ ⟨true, false⟩ (Body.json "\x7b\x7d") (.completes 500)).1 = 1 ∧
    countSpanEnds
      (execute ⟨true, true⟩ ⟨true, false⟩ (Body.json "\x7b\x7d") (.completes 500)).1 = 1 :=
  span_started_and_ended_exactly_once ⟨true, true⟩ ⟨true, false⟩ (Body.json "\x7b\x7d")
    (.completes 500) rfl rfl rfl

/-- C8: with tracing enabled but no valid parent span context on the
caller-supplied context, no span is created and no ending hook records
anything, for every outcome. -/
theorem no_parent_context_no_span (cfg : Config) (ctx : Ctx) (body : Body)
    (t : TransportOutcome) (hotel : cfg.otelMWEnabled = true)
    (hparent : ctx.parentSpanValid = false) (hidle : ctx.activeSpan = false) :
    countSpanStarts (execute cfg ctx body t).1 = 0 ∧
    countSpanEnds (execute cfg ctx body t).1 = 0 := by
  cases body <;> cases t <;> cases hl : cfg.logMWEnabled <;>
    simp [execute, startTrace, logRequest, marshalBody, logResponse, endTraceSuccess,
      endTraceError, countSpanStarts, countSpanEnds, hotel, hparent, hidle, hl,
      Event.isSpanStart, Event.isSpanEnd, List.countP_cons, List.countP_nil,
      List.countP_append]

theorem no_parent_context_no_span_witness :
    countSpanStarts
      (execute ⟨true, true⟩ ⟨false, false⟩ (Body.json "\x7b\x7d") (.fails "dial tcp: refused")).1 = 0 ∧
    countSpanEnds
      (execute ⟨true, true⟩ ⟨false, false⟩ (Body.json "\x7b\x7d") (.fails "dial tcp: refused")).1 = 0 :=
  no_parent_context_no_span ⟨true, true⟩ ⟨false, false⟩ (Body.json "\x7b\x7d")
    (.fails "dial tcp: refused") rfl rfl rfl

/-- C2: a call whose route name is absent from the path registry returns,
before any side effect, a route-not-found error whose message contains the
literal requested name: the event trace is empty (no span, no log record,
no breaker consultation, no transport call) and no request is built — both
in the plain pipeline and in the breaker-gated one. -/
theorem route_not_found_aborts_before_side_effects (c : Client) (ctx : Ctx)
    (req : Request) (t : TransportOutcome)
    (h : lookupPath c.paths req.pathName = none) :
    Do c ctx req t = ([], none, .err (.routeNotFound req.pathName)) ∧
    (DoError.routeNotFound req.pathName).message =
      "path \"" ++ req.pathName ++ "\" not found" ∧
    ∀ b now, doWithBreaker c b now ctx req t =
      ([], .err (.routeNotFound req.pathName), b) := by
  refine ⟨?_, rfl, ?_⟩
  · simp [Do, h]
  · intro b now
    simp [doWithBreaker, h]

theorem route_not_found_witness :
    Do testClient ⟨true, false⟩
      { pathName := "missing", header := [], userInfo := none, body := .json "\x7b\x7d" }
      (.completes 200) = ([], none, .err (.routeNotFound "missing")) ∧
    (DoError.routeNotFound "missing").message = "path \"" ++ "missing" ++ "\" not found" ∧
    ∀ b now, doWithBreaker testClient b now ⟨true, false⟩
      { pathName := "missing", header := [], userInfo := none, body := .json "\x7b\x7d" }
      (.completes 200) = ([], .err (.routeNotFound "missing"), b) :=
  route_not_found_aborts_before_side_effects testClient ⟨true, false⟩
    { pathName := "missing", header := [], userInfo := none, body := .json "\x7b\x7d" }
    (.completes 200) (by decide)

/-- The engine result is a panic only when the transport outcome itself
panicked: request-middleware aborts and transport failures yield failures,
completed round-trips yield responses. -/
theorem execute_result_not_panicked (cfg : Config) (ctx : Ctx) (body : Body)
    (t : TransportOutcome) (ht : ∀ m, t ≠ .panics m) :
    ∀ m, (execute cfg ctx body t).2 ≠ .panicked m := by
  intro m
  cases t with
  | panics m0 => exact absurd rfl (ht m0)
  | completes s =>
      cases body <;> cases hl : cfg.logMWEnabled <;>
        simp [execute, logRequest, marshalBody, hl]
  | fails m0 =>
      cases body <;> cases hl : cfg.logMWEnabled <;>
        simp [execute, logRequest, marshalBody, hl]

/-- C9: with no basic-auth credentials on the request, the extraction inside
Do applies nothing — the absent case is matched behind the explicit guard,
never dereferenced — and Do completes with its normal result or error: no
panic arises unless the transport outcome itself panicked. -/
theorem basic_auth_absent_never_panics (c : Client) (ctx : Ctx) (req : Request)
    (t : TransportOutcome) (hcreds : req.userInfo = none)
    (ht : ∀ m, t ≠ .panics m) :
    applyBasicAuth req.userInfo = none ∧
    ∀ m, (Do c ctx req t).2.2 ≠ .panicked m := by
  refine ⟨by simp [applyBasicAuth, hcreds], ?_⟩
  intro m
  rcases hpath : lookupPath c.paths req.pathName with _ | p
  · simp [Do, hpath]
  · rcases hex : execute c.cfg ctx req.body t with ⟨ev, r⟩
    cases r with
    | response s => simp [Do, hpath, hex]
    | failure cse => simp [Do, hpath, hex]
    | panicked m0 =>
        exact absurd (by rw [hex]) (execute_result_not_panicked c.cfg ctx req.body t ht m0)

theorem basic_auth_absent_never_panics_witness :
    applyBasicAuth
      (Request.mk "getUser" [] none (Body.json "\x7b\x7d")).userInfo = none ∧
    ∀ m, (Do testClient ⟨true, false⟩
      (Request.mk "getUser" [] none (Body.json "\x7b\x7d")) (.completes 200)).2.2 ≠
        DoResult.panicked m :=
  basic_auth_absent_never_panics testClient ⟨true, false⟩
    (Request.mk "getUser" [] none (Body.json "\x7b\x7d")) (.completes 200) rfl
    (fun m h => by cases h)

/-- C10: GetPath yields the empty string for a name absent from the registry
(the Go map zero value — no error, no found flag), and a request then issued
with that path resolves to the bare base URL and completes normally with
whatever status the server answers (the 404 of the test), instead of failing
with a route-not-found error. -/
theorem getPath_missing_empty_then_base_url (c : Client) (nm : String)
    (h : lookupPath c.paths nm = none) :
    GetPath c nm = "" ∧
    (∀ ctx t, (clientGet c ctx (GetPath c nm) t).2.1 = c.baseURL) ∧
    (∀ ctx s, (clientGet c ctx (GetPath c nm) (.completes s)).2.2 = .response s) := by
  have hget : GetPath c nm = "" := by simp [GetPath, h]
  refine ⟨hget, ?_, ?_⟩
  · intro ctx t
    simp [clientGet, hget]
  · intro ctx s
    cases hl : c.cfg.logMWEnabled <;>
      simp [clientGet, execute, logRequest, marshalBody, hl]

theorem getPath_missing_witness :
    GetPath testClient "nonExistPath" = "" ∧
    (∀ ctx t, (clientGet testClient ctx (GetPath testClient "nonExistPath") t).2.1 =
      testClient.baseURL) ∧
    (∀ ctx s, (clientGet testClient ctx (GetPath testClient "nonExistPath")
      (.completes s)).2.2 = .response s) :=
  getPath_missing_empty_then_base_url testClient "nonExistPath" (by decide)

/-- C3: a call that completes at the transport level returns a populated
envelope and no error — the status code is returned as-is, 4xx/5xx included;
a transport failure is surfaced as an error wrapping the underlying cause,
with no envelope; and Do returns an error exactly when the route is missing,
the pre-send hook aborts, or transport-level execution fails. -/
theorem completed_call_is_not_an_error (c : Client) (ctx : Ctx) (req : Request) :
    (∀ s, (lookupPath c.paths req.pathName).isSome = true →
      (logRequest c.cfg req.body).2 = none →
      (Do c ctx req (.completes s)).2.2 = .ok { statusCode := s }) ∧
    (∀ m, (lookupPath c.paths req.pathName).isSome = true →
      (logRequest c.cfg req.body).2 = none →
      (Do c ctx req (.fails m)).2.2 = .err (.executionError (.transport m)) ∧
      (DoError.executionError (.transport m)).message = "error executing request: " ++ m) ∧
    (∀ t, (∃ e, (Do c ctx req t).2.2 = .err e) ↔
      (lookupPath c.paths req.pathName = none ∨
        (∃ m, (logRequest c.cfg req.body).2 = some m) ∨
        (∃ m, t = .fails m))) := by
  refine ⟨?_, ?_, ?_⟩
  · intro s hroute hpre
    rcases hpath : lookupPath c.paths req.pathName with _ | p
    · rw [hpath] at hroute
      exact absurd hroute (by simp)
    · rcases hlr : logRequest c.cfg req.body with ⟨e2, o⟩
      rw [hlr] at hpre
      simp only at hpre
      subst hpre
      simp [Do, hpath, execute, hlr]
  · intro m hroute hpre
    rcases hpath : lookupPath c.paths req.pathName with _ | p
    · rw [hpath] at hroute
      exact absurd hroute (by simp)
    · rcases hlr : logRequest c.cfg req.body with ⟨e2, o⟩
      rw [hlr] at hpre
      simp only at hpre
      subst hpre
      exact ⟨by simp [Do, hpath, execute, hlr], rfl⟩
  · intro t
    rcases hpath : lookupPath c.paths req.pathName with _ | p
    · simp [Do, hpath]
    · rcases hlr : logRequest c.cfg req.body with ⟨e2, o⟩
      cases o with
      | some m => simp [Do, hpath, execute, hlr]
      | none =>
          cases t with
          | completes s => simp [Do, hpath, execute, hlr]
          | fails m => simp [Do, hpath, execute, hlr]
          | panics m => simp [Do, hpath, execute, hlr]

theorem completed_call_is_not_an_error_witness :
    ((∀ s, (lookupPath testClient.paths "getUser").isSome = true →
      (logRequest testClient.cfg (Body.json "\x7b\x7d")).2 = none →
      (Do testClient ⟨true, false⟩
        (Request.mk "getUser" [] none (Body.json "\x7b\x7d")) (.completes s)).2.2 =
        .ok { statusCode := s }) ∧
    (∀ m, (lookupPath testClient.paths "getUser").isSome = true →
      (logRequest testClient.cfg (Body.json "\x7b\x7d")).2 = none →
      (Do testClient ⟨true, false⟩
        (Request.mk "getUser" [] none (Body.json "\x7b\x7d")) (.fails m)).2.2 =
        .err (.executionError (.transport m)) ∧
      (DoError.executionError (.transport m)).message = "error executing request: " ++ m) ∧
    (∀ t, (∃ e, (Do testClient ⟨true, false⟩
      (Request.mk "getUser" [] none (Body.json "\x7b\x7d")) t).2.2 = .err e) ↔
      (lookupPath testClient.paths "getUser" = none ∨
        (∃ m, (logRequest testClient.cfg (Body.json "\x7b\x7d")).2 = some m) ∨
        (∃ m, t = .fails m)))) ∧
    (Do testClient ⟨true, false⟩
      (Request.mk "getUser" [] none (Body.json "\x7b\x7d")) (.completes 500)).2.2 =
      .ok { statusCode := 500 } :=
  ⟨completed_call_is_not_an_error testClient ⟨true, false⟩
    (Request.mk "getUser" [] none (Body.json "\x7b\x7d")),
   (completed_call_is_not_an_error testClient ⟨true, false⟩
    (Request.mk "getUser" [] none (Body.json "\x7b\x7d"))).1 500 (by decide) (by decide)⟩

theorem startTrace_events (cfg : Config) (ctx : Ctx) :
    (startTrace cfg ctx).2 = [] ∨ (startTrace cfg ctx).2 = [.spanStart] := by
  cases ho : cfg.otelMWEnabled <;> cases hp : ctx.parentSpanValid <;>
    simp [startTrace, ho, hp]

theorem endTraceSuccess_events (cfg : Config) (ctx : Ctx) :
    endTraceSuccess cfg ctx = [] ∨ endTraceSuccess cfg ctx = [.spanEnd .success] := by
  cases ho : cfg.otelMWEnabled <;> cases ha : ctx.activeSpan <;>
    simp [endTraceSuccess, ho, ha]

theorem endTraceError_events (cfg : Config) (ctx : Ctx) (p : EndPath) :
    endTraceError cfg ctx p = [] ∨ endTraceError cfg ctx p = [.spanEnd p] := by
  cases ho : cfg.otelMWEnabled <;> cases ha : ctx.activeSpan <;>
    simp [endTraceError, ho, ha]

/-- C4 counterexample: with logging enabled, a call that terminates with a
transport error emits only the pre-send record — one log record, not the two
the claim requires on every call. -/
theorem two_log_records_counterexample :
    countLogRecords
      (execute ⟨true, false⟩ ⟨false, false⟩ (Body.json "\x7b\x7d")
        (.fails "dial tcp: connection refused")).1 = 1 ∧
    countLogRecords
      (execute ⟨true, false⟩ ⟨false, false⟩ (Body.json "\x7b\x7d")
        (.fails "dial tcp: connection refused")).1 ≠ 2 := by
  decide

/-- C4 (amended): with logging enabled and a marshalable body, exactly one
pre-send record is emitted strictly before the transport call; when the call
completes at the transport level, exactly one post-receive record is emitted
strictly after it; when the call terminates with a transport error, the
after-response middlewares are skipped, so no post-receive record is emitted
and the pre-send record is the only log record of the call. -/
theorem one_pre_record_post_record_only_on_completion (cfg : Config) (ctx : Ctx)
    (j : String) (s : Nat) (m : String) (hl : cfg.logMWEnabled = true) :
    (∃ l1 l2,
      (execute cfg ctx (.json j) (.completes s)).1 = l1 ++ Event.transportCall :: l2 ∧
      l1.countP Event.isPreLog = 1 ∧ l1.countP Event.isPostLog = 0 ∧
      l2.countP Event.isPostLog = 1 ∧ l2.countP Event.isPreLog = 0) ∧
    (∃ l1 l2,
      (execute cfg ctx (.json j) (.fails m)).1 = l1 ++ Event.transportCall :: l2 ∧
      l1.countP Event.isPreLog = 1 ∧ l1.countP Event.isPostLog = 0 ∧
      l2.countP Event.isLogRecord = 0) := by
  constructor
  · refine ⟨(startTrace cfg ctx).2 ++ [Event.logPre],
      logResponse cfg s ++ endTraceSuccess cfg (startTrace cfg ctx).1, ?_, ?_, ?_, ?_, ?_⟩
    · simp [execute, logRequest, marshalBody, hl]
    · rcases startTrace_events cfg ctx with h | h <;>
        simp [h, List.countP_append, List.countP_cons, Event.isPreLog]
    · rcases startTrace_events cfg ctx with h | h <;>
        simp [h, List.countP_append, List.countP_cons, Event.isPostLog]
    · rcases endTraceSuccess_events cfg (startTrace cfg ctx).1 with h | h <;>
        simp [h, logResponse, hl, List.countP_append, List.countP_cons, Event.isPostLog]
    · rcases endTraceSuccess_events cfg (startTrace cfg ctx).1 with h | h <;>
        simp [h, logResponse, hl, List.countP_append, List.countP_cons, Event.isPreLog]
  · refine ⟨(startTrace cfg ctx).2 ++ [Event.logPre],
      endTraceError cfg (startTrace cfg ctx).1 .errorHook, ?_, ?_, ?_, ?_⟩
    · simp [execute, logRequest, marshalBody, hl]
    · rcases startTrace_events cfg ctx with h | h <;>
        simp [h, List.countP_append, List.countP_cons, Event.isPreLog]
    · rcases startTrace_events cfg ctx with h | h <;>
        simp [h, List.countP_append, List.countP_cons, Event.isPostLog]
    · rcases endTraceError_events cfg (startTrace cfg ctx).1 .errorHook with h | h <;>
        simp [h, List.countP_cons, Event.isLogRecord]

theorem one_pre_record_post_record_witness :
    (∃ l1 l2,
      (execute ⟨true, true⟩ ⟨true, false⟩ (Body.json "\x7b\x7d") (.completes 200)).1 =
        l1 ++ Event.transportCall :: l2 ∧
      l1.countP Event.isPreLog = 1 ∧ l1.countP Event.isPostLog = 0 ∧
      l2.countP Event.isPostLog = 1 ∧ l2.countP Event.isPreLog = 0) ∧
    (∃ l1 l2,
      (execute ⟨true, true⟩ ⟨true, false⟩ (Body.json "\x7b\x7d") (.fails "timeout")).1 =
        l1 ++ Event.transportCall :: l2 ∧
      l1.countP Event.isPreLog = 1 ∧ l1.countP Event.isPostLog = 0 ∧
      l2.countP Event.isLogRecord = 0) :=
  one_pre_record_post_record_only_on_completion ⟨true, true⟩ ⟨true, false⟩ "\x7b\x7d" 200
    "timeout" rfl

/-- C5 counterexample: with logging enabled, a request body that fails to
marshal makes the pre-send hook return the marshal error rather than no
error, and the send does not proceed: no transport call occurs. -/
theorem presend_marshal_failure_counterexample :
    (logRequest ⟨true, false⟩ (Body.unmarshalable "json: unsupported type: chan int")).2 ≠
      none ∧
    countTransportCalls
      (execute ⟨true, false⟩ ⟨false, false⟩
        (Body.unmarshalable "json: unsupported type: chan int") (.completes 200)).1 = 0 := by
  decide

/-- C5 (amended): with logging enabled, a request body that fails to marshal
still produces exactly one pre-send record, carrying the explicit encode
error — but the hook returns that error and the call aborts: the send does
not proceed (no transport call) and the call fails with the marshal error. -/
theorem presend_marshal_failure_logs_and_aborts (cfg : Config) (ctx : Ctx) (e : String)
    (t : TransportOutcome) (hl : cfg.logMWEnabled = true) :
    logRequest cfg (.unmarshalable e) = ([.logPreEncodeErr e], some e) ∧
    (execute cfg ctx (.unmarshalable e) t).2 = .failure (.encode e) ∧
    countTransportCalls (execute cfg ctx (.unmarshalable e) t).1 = 0 ∧
    (execute cfg ctx (.unmarshalable e) t).1.countP Event.isPreLog = 1 := by
  have hlr : logRequest cfg (.unmarshalable e) = ([.logPreEncodeErr e], some e) := by
    simp [logRequest, marshalBody, hl]
  refine ⟨hlr, by simp [execute, hlr], ?_, ?_⟩
  · rcases startTrace_events cfg ctx with h | h <;>
      rcases endTraceError_events cfg (startTrace cfg ctx).1 .errorHook with h2 | h2 <;>
      simp [execute, hlr, countTransportCalls, h, h2, List.countP_append,
        List.countP_cons, Event.isTransportCall]
  · rcases startTrace_events cfg ctx with h | h <;>
      rcases endTraceError_events cfg (startTrace cfg ctx).1 .errorHook with h2 | h2 <;>
      simp [execute, hlr, h, h2, List.countP_append, List.countP_cons, Event.isPreLog]

theorem presend_marshal_failure_witness :
    logRequest ⟨true, true⟩ (.unmarshalable "json: unsupported type: chan int") =
      ([.logPreEncodeErr "json: unsupported type: chan int"],
        some "json: unsupported type: chan int") ∧
    (execute ⟨true, true⟩ ⟨true, false⟩
      (.unmarshalable "json: unsupported type: chan int") (.completes 200)).2 =
      .failure (.encode "json: unsupported type: chan int") ∧
    countTransportCalls
      (execute ⟨true, true⟩ ⟨true, false⟩
        (.unmarshalable "json: unsupported type: chan int") (.completes 200)).1 = 0 ∧
    (execute ⟨true, true⟩ ⟨true, false⟩
      (.unmarshalable "json: unsupported type: chan int")
      (.completes 200)).1.countP Event.isPreLog = 1 :=
  presend_marshal_failure_logs_and_aborts ⟨true, true⟩ ⟨true, false⟩
    "json: unsupported type: chan int" (.completes 200) rfl

theorem headerGet_headerSet_same (h : Header) (k v : String) :
    headerGet (headerSet h k v) k = v := by
  simp [headerGet, headerSet, List.find?_cons]

theorem find?_filter_key_ne (h : Header) (k k0 : String) (hk : k ≠ k0) :
    (h.filter (fun kv => kv.1 != k0)).find? (fun kv => kv.1 == k) =
      h.find? (fun kv => kv.1 == k) := by
  induction h with
  | nil => rfl
  | cons a tl ih =>
      have hk0 : (k0 == k) = false := beq_eq_false_iff_ne.mpr (Ne.symm hk)
      by_cases ha : a.1 = k0
      · have hak : (a.1 == k) = false := by
          rw [ha]
          exact hk0
        simp [List.filter_cons, ha, List.find?_cons, hak, hk0, ih]
      · by_cases hak : a.1 = k
        · simp [List.filter_cons, ha, List.find?_cons, hak, hk, ih]
        · simp [List.filter_cons, ha, List.find?_cons, hak, hk, ih]

theorem headerGet_headerSet_ne (h : Header) (k k0 v : String) (hk : k ≠ k0) :
    headerGet (headerSet h k0 v) k = headerGet h k := by
  have hk0 : (k0 == k) = false := beq_eq_false_iff_ne.mpr (Ne.symm hk)
  simp [headerGet, headerSet, List.find?_cons, hk0, find?_filter_key_ne h k k0 hk]

theorem find?_none_of_not_hasKey (h : Header) (k : String) (hk : hasKey h k = false) :
    h.find? (fun kv => kv.1 == k) = none := by
  rw [List.find?_eq_none]
  intro x hx hpx
  have : hasKey h k = true := List.any_eq_true.mpr ⟨x, hx, hpx⟩
  rw [hk] at this
  cases this

theorem find?_filter_not_hasKey (base callH : Header) (k : String)
    (hk : hasKey callH k = false) :
    (base.filter (fun kv => !hasKey callH kv.1)).find? (fun kv => kv.1 == k) =
      base.find? (fun kv => kv.1 == k) := by
  induction base with
  | nil => rfl
  | cons a tl ih =>
      by_cases hak : a.1 = k
      · have hdrop : hasKey callH a.1 = false := by rw [hak]; exact hk
        simp [List.filter_cons, hdrop, List.find?_cons, hak, hk]
      · have hbeq : (a.1 == k) = false := beq_eq_false_iff_ne.mpr hak
        cases hca : hasKey callH a.1
        · simp [List.filter_cons, hca, List.find?_cons, hbeq, ih]
        · simp [List.filter_cons, hca, List.find?_cons, hbeq, ih]

theorem headerGet_mergeHeaders_of_hasKey (base callH : Header) (k : String)
    (hk : hasKey callH k = true) :
    headerGet (mergeHeaders base callH) k = headerGet callH k := by
  rcases List.any_eq_true.mp hk with ⟨kv, hmem, hkv⟩
  have hsome : (callH.find? (fun kv => kv.1 == k)).isSome := by
    rw [List.find?_isSome]
    exact ⟨kv, hmem, hkv⟩
  rcases Option.isSome_iff_exists.mp hsome with ⟨kv0, hfind⟩
  simp [mergeHeaders, headerGet, List.find?_append, hfind]

theorem headerGet_mergeHeaders_of_not_hasKey (base callH : Header) (k : String)
    (hk : hasKey callH k = false) :
    headerGet (mergeHeaders base callH) k = headerGet base k := by
  simp [mergeHeaders, headerGet, List.find?_append,
    find?_none_of_not_hasKey callH k hk, find?_filter_not_hasKey base callH k hk]

/-- C6 counterexample: a caller-supplied User-Agent is not preserved — the
default-header step of Do overwrites it with clientName/version. -/
theorem user_agent_not_preserved_counterexample :
    headerGet (setDefaultHeaders "test-client" "1.0"
      [("User-Agent", "custom-agent")]) "User-Agent" ≠ "custom-agent" ∧
    headerGet (setDefaultHeaders "test-client" "1.0"
      [("User-Agent", "custom-agent")]) "User-Agent" = "test-client/1.0" := by
  decide

/-- C6 (amended): Do sets Content-Type to application/json only when the
caller did not set one (a caller-supplied Content-Type is preserved), but
sets User-Agent to clientName/version unconditionally, overwriting any
caller-supplied value; client default headers are merged with call-specific
headers, the call-specific value winning on conflict. -/
theorem default_header_handling (n v : String) (h base callH : Header) (k : String) :
    (headerGet h "Content-Type" = "" →
      headerGet (setDefaultHeaders n v h) "Content-Type" = "application/json") ∧
    (headerGet h "Content-Type" ≠ "" →
      headerGet (setDefaultHeaders n v h) "Content-Type" = headerGet h "Content-Type") ∧
    headerGet (setDefaultHeaders n v h) "User-Agent" = n ++ "/" ++ v ∧
    (hasKey callH k = true →
      headerGet (mergeHeaders base callH) k = headerGet callH k) ∧
    (hasKey callH k = false →
      headerGet (mergeHeaders base callH) k = headerGet base k) := by
  have hne : "Content-Type" ≠ "User-Agent" := by decide
  refine ⟨?_, ?_, ?_, headerGet_mergeHeaders_of_hasKey base callH k,
    headerGet_mergeHeaders_of_not_hasKey base callH k⟩
  · intro hempty
    rw [setDefaultHeaders, headerGet_headerSet_ne _ _ _ _ hne]
    simp only [hempty, beq_self_eq_true, if_true]
    exact headerGet_headerSet_same h "Content-Type" "application/json"
  · intro hfull
    rw [setDefaultHeaders, headerGet_headerSet_ne _ _ _ _ hne]
    have : (headerGet h "Content-Type" == "") = false := beq_eq_false_iff_ne.mpr hfull
    simp [this]
  · rw [setDefaultHeaders]
    exact headerGet_headerSet_same _ "User-Agent" (n ++ "/" ++ v)

theorem default_header_handling_witness :
    (headerGet [("Accept", "text/plain")] "Content-Type" = "" →
      headerGet (setDefaultHeaders "test-client" "1.0" [("Accept", "text/plain")])
        "Content-Type" = "application/json") ∧
    (headerGet [("Accept", "text/plain")] "Content-Type" ≠ "" →
      headerGet (setDefaultHeaders "test-client" "1.0" [("Accept", "text/plain")])
        "Content-Type" = headerGet [("Accept", "text/plain")] "Content-Type") ∧
    headerGet (setDefaultHeaders "test-client" "1.0" [("Accept", "text/plain")])
      "User-Agent" = "test-client" ++ "/" ++ "1.0" ∧
    (hasKey [("x-test-header3", "new-val")] "x-test-header3" = true →
      headerGet (mergeHeaders [("x-test-header3", "old-val")]
        [("x-test-header3", "new-val")]) "x-test-header3" =
        headerGet [("x-test-header3", "new-val")] "x-test-header3") ∧
    (hasKey [("x-test-header3", "new-val")] "x-test-header3" = false →
      headerGet (mergeHeaders [("x-test-header3", "old-val")]
        [("x-test-header3", "new-val")]) "x-test-header3" =
        headerGet [("x-test-header3", "old-val")] "x-test-header3") :=
  default_header_handling "test-client" "1.0" [("Accept", "text/plain")]
    [("x-test-header3", "old-val")] [("x-test-header3", "new-val")] "x-test-header3"

/-- With a pre-send hook that raises no error, a transport-completed call
yields the response result. -/
theorem execute_completes (cfg : Config) (ctx : Ctx) (body : Body) (s : Nat)
    (hpre : (logRequest cfg body).2 = none) :
    (execute cfg ctx body (.completes s)).2 = .response s := by
  rcases hlr : logRequest cfg body with ⟨e2, o⟩
  rw [hlr] at hpre
  simp only at hpre
  subst hpre
  simp [execute, hlr]

/-- With a pre-send hook that raises no error, a transport-completed call
performs exactly one transport round-trip. -/
theorem execute_one_transport (cfg : Config) (ctx : Ctx) (body : Body) (s : Nat)
    (hpre : (logRequest cfg body).2 = none) :
    countTransportCalls (execute cfg ctx body (.completes s)).1 = 1 := by
  cases body with
  | json j =>
      cases hl : cfg.logMWEnabled <;> cases ho : cfg.otelMWEnabled <;>
        cases hp : ctx.parentSpanValid <;> cases ha : ctx.activeSpan <;>
        simp [execute, startTrace, logRequest, marshalBody, logResponse, endTraceSuccess,
          countTransportCalls, hl, ho, hp, ha, Event.isTransportCall, List.countP_cons,
          List.countP_append, List.countP_nil]
  | unmarshalable e =>
      cases hl : cfg.logMWEnabled
      · cases ho : cfg.otelMWEnabled <;>
          cases hp : ctx.parentSpanValid <;> cases ha : ctx.activeSpan <;>
          simp [execute, startTrace, logRequest, marshalBody, logResponse, endTraceSuccess,
            countTransportCalls, hl, ho, hp, ha, Event.isTransportCall, List.countP_cons,
            List.countP_append, List.countP_nil]
      · simp [logRequest, marshalBody, hl] at hpre

/-- Once the breaker is open, consecutive failing calls leave it open: a
rejected call does not touch the state, and an admitted half-open trial that
fails reopens it. -/
theorem iterate_failing_stays_open (c : Client) (ctx : Ctx) (req : Request) (s : Nat)
    (hroute : (lookupPath c.paths req.pathName).isSome = true)
    (hpre : (logRequest c.cfg req.body).2 = none) (hs : 500 ≤ s) :
    ∀ n b now t0, b.state = .opened t0 →
      ∃ t1, (iterateCalls c ctx req (.completes s) n b now).state = .opened t1 := by
  intro n
  induction n with
  | zero => exact fun b now t0 hb => ⟨t0, by simpa [iterateCalls] using hb⟩
  | succ m ih =>
      intro b now t0 hb
      rcases hpath : lookupPath c.paths req.pathName with _ | p
      · rw [hpath] at hroute
        exact absurd hroute (by simp)
      · rcases hex : execute c.cfg ctx req.body (.completes s) with ⟨ev, r⟩
        have hr : r = .response s := by
          have := execute_completes c.cfg ctx req.body s hpre
          rw [hex] at this
          exact this
        subst hr
        have hpol : defaultBreakerPolicy s = true := by
          simp [defaultBreakerPolicy]
          omega
        by_cases htime : t0 + b.timeout ≤ now
        · have hstep : (doWithBreaker c b now ctx req (.completes s)).2.2 =
              { b with state := .opened now } := by
            simp [doWithBreaker, hpath, Breaker.allow, hb, htime, hex, hpol, Breaker.record]
          rw [iterateCalls, hstep]
          exact ih _ _ now rfl
        · have hstep : (doWithBreaker c b now ctx req (.completes s)).2.2 = b := by
            simp [doWithBreaker, hpath, Breaker.allow, hb, htime]
          rw [iterateCalls, hstep]
          exact ih _ _ t0 hb


/-- Starting Closed with `f` consecutive failures already recorded, `n` more
consecutive failing calls reach the failure threshold `f + n` and open the
breaker. -/
theorem iterate_failing_opens (c : Client) (ctx : Ctx) (req : Request) (s : Nat)
    (hroute : (lookupPath c.paths req.pathName).isSome = true)
    (hpre : (logRequest c.cfg req.body).2 = none) (hs : 500 ≤ s) :
    ∀ n f b now, b.state = .closed f → b.failureThreshold = f + n → 0 < n →
      ∃ t0, (iterateCalls c ctx req (.completes s) n b now).state = .opened t0 := by
  intro n
  induction n with
  | zero => exact fun f b now _ _ h0 => absurd h0 (by simp)
  | succ m ih =>
      intro f b now hst hth _
      rcases hpath : lookupPath c.paths req.pathName with _ | p
      · rw [hpath] at hroute
        exact absurd hroute (by simp)
      · rcases hex : execute c.cfg ctx req.body (.completes s) with ⟨ev, r⟩
        have hr : r = .response s := by
          have := execute_completes c.cfg ctx req.body s hpre
          rw [hex] at this
          exact this
        subst hr
        have hpol : defaultBreakerPolicy s = true := by
          simp [defaultBreakerPolicy]
          omega
        by_cases hth1 : b.failureThreshold ≤ f + 1
        · have hstep : (doWithBreaker c b now ctx req (.completes s)).2.2 =
              { b with state := .opened now } := by
            simp [doWithBreaker, hpath, Breaker.allow, hst, hex, hpol, Breaker.record, hth1]
          rw [iterateCalls, hstep]
          exact iterate_failing_stays_open c ctx req s hroute hpre hs m _ _ now rfl
        · have hm : 0 < m := by omega
          have hstep : (doWithBreaker c b now ctx req (.completes s)).2.2 =
              { b with state := .closed (f + 1) } := by
            simp [doWithBreaker, hpath, Breaker.allow, hst, hex, hpol, Breaker.record, hth1]
          rw [iterateCalls, hstep]
          exact ih (f + 1) _ (now + 1) rfl (by simp; omega) hm

/-- C7: with the breaker enabled and Open within its timeout window, every
call is rejected immediately with a breaker-open error distinguishable from
transport and application errors, performing no middleware work at all (no
span started, no log record, no transport call — the breaker consultation is
the only event) and leaving the breaker untouched; starting Closed, after
failureThreshold consecutive calls failing under the default policy (status
500 and above) the breaker is Open; and once the timeout window has elapsed
the next call is admitted as a half-open trial that does reach the
transport. -/
theorem circuit_breaker_gate (c : Client) (ctx : Ctx) (req : Request) (s : Nat)
    (hroute : (lookupPath c.paths req.pathName).isSome = true)
    (hpre : (logRequest c.cfg req.body).2 = none) (hs : 500 ≤ s) :
    (∀ b now t0 t, b.state = .opened t0 → now < t0 + b.timeout →
      doWithBreaker c b now ctx req t =
        ([.breakerConsult], .err (.executionError .breakerOpen), b) ∧
      (DoError.executionError .breakerOpen).isBreakerOpen = true ∧
      (∀ m, (DoError.executionError (.transport m)).isBreakerOpen = false) ∧
      (∀ m, (DoError.executionError (.encode m)).isBreakerOpen = false) ∧
      (∀ nm, (DoError.routeNotFound nm).isBreakerOpen = false)) ∧
    (∀ b now, b.state = .closed 0 → 0 < b.failureThreshold →
      ∃ t0, (iterateCalls c ctx req (.completes s) b.failureThreshold b now).state =
        .opened t0) ∧
    (∀ b now t0, b.state = .opened t0 → t0 + b.timeout ≤ now →
      (b.allow now).1 = true ∧ (b.allow now).2.state = .halfOpen 0 ∧
      countTransportCalls (doWithBreaker c b now ctx req (.completes s)).1 = 1) := by
  refine ⟨?_, ?_, ?_⟩
  · intro b now t0 t hb hnow
    rcases hpath : lookupPath c.paths req.pathName with _ | p
    · rw [hpath] at hroute
      exact absurd hroute (by simp)
    · have htime : ¬ t0 + b.timeout ≤ now := by omega
      refine ⟨?_, rfl, fun m => rfl, fun m => rfl, fun nm => rfl⟩
      simp [doWithBreaker, hpath, Breaker.allow, hb, htime]
  · intro b now hb hpos
    exact iterate_failing_opens c ctx req s hroute hpre hs b.failureThreshold 0 b now hb
      (by omega) hpos
  · intro b now t0 hb htime
    rcases hpath : lookupPath c.paths req.pathName with _ | p
    · rw [hpath] at hroute
      exact absurd hroute (by simp)
    · rcases hex : execute c.cfg ctx req.body (.completes s) with ⟨ev, r⟩
      have hr : r = .response s := by
        have := execute_completes c.cfg ctx req.body s hpre
        rw [hex] at this
        exact this
      subst hr
      have hev : countTransportCalls ev = 1 := by
        have := execute_one_transport c.cfg ctx req.body s hpre
        rw [hex] at this
        exact this
      refine ⟨by simp [Breaker.allow, hb, htime], by simp [Breaker.allow, hb, htime], ?_⟩
      simp [doWithBreaker, hpath, Breaker.allow, hb, htime, hex, countTransportCalls,
        List.countP_cons, Event.isTransportCall]
      simpa [countTransportCalls] using hev

theorem circuit_breaker_gate_witness :
    ((∀ b now t0 t, b.state = .opened t0 → now < t0 + b.timeout →
      doWithBreaker testClient b now ⟨true, false⟩
        (Request.mk "getUser" [] none (Body.json "\x7b\x7d")) t =
        ([.breakerConsult], .err (.executionError .breakerOpen), b) ∧
      (DoError.executionError .breakerOpen).isBreakerOpen = true ∧
      (∀ m, (DoError.executionError (.transport m)).isBreakerOpen = false) ∧
      (∀ m, (DoError.executionError (.encode m)).isBreakerOpen = false) ∧
      (∀ nm, (DoError.routeNotFound nm).isBreakerOpen = false)) ∧
    (∀ b now, b.state = .closed 0 → 0 < b.failureThreshold →
      ∃ t0, (iterateCalls testClient ⟨true, false⟩
        (Request.mk "getUser" [] none (Body.json "\x7b\x7d")) (.completes 500)
        b.failureThreshold b now).state = .opened t0) ∧
    (∀ b now t0, b.state = .opened t0 → t0 + b.timeout ≤ now →
      (b.allow now).1 = true ∧ (b.allow now).2.state = .halfOpen 0 ∧
      countTransportCalls (doWithBreaker testClient b now ⟨true, false⟩
        (Request.mk "getUser" [] none (Body.json "\x7b\x7d")) (.completes 500)).1 = 1)) ∧
    (∃ t0, (iterateCalls testClient ⟨true, false⟩
      (Request.mk "getUser" [] none (Body.json "\x7b\x7d")) (.completes 500) 3
      (WithCircuitBreaker 100 3 1) 0).state = .opened t0) :=
  ⟨circuit_breaker_gate testClient ⟨true, false⟩
    (Request.mk "getUser" [] none (Body.json "\x7b\x7d")) 500 (by decide) (by decide)
    (by decide),
   (circuit_breaker_gate testClient ⟨true, false⟩
    (Request.mk "getUser" [] none (Body.json "\x7b\x7d")) 500 (by decide) (by decide)
    (by decide)).2.1 (WithCircuitBreaker 100 3 1) 0 (by decide) (by decide)⟩

end Httpz
